import Mathlib

/-!
# Verification of the wordle-discord-tracker core against its specification

This file is a shallow embedding, in Lean 4, of the core of the
`wordle-discord-tracker` repository:

* `src/detection.rs` — scale-space template detection with greedy suppression
  (`detect_needle_in_haystack`);
* `src/lib.rs` — the completion verifier (`verify_player_completion`), the
  `Player` record with its lazily-fetched avatar, and `format_duration`;
* `src/main.rs` — the game-state tracker (`GameState`, the presence handler,
  the attachment/message handler) and the two retry wrappers
  (`get_member_with_retry`, `verify_completion_with_retry`).

External effects (OpenCV image operations, HTTP fetches, Discord API calls,
sleeping, clocks) are modelled by explicit oracle parameters; the control flow
around them is translated from the Rust source line by line.  Machine floats
appear only in the scale-grid computation of `detection.rs`; for that single
computation we use an exact-rational idealisation of IEEE-754 binary64 that is
faithful on the special values (`±∞`, `NaN`) the relevant claims depend on.
Confidence scores (`f64` values produced by `min_max_loc`) are modelled as
rationals: every score that enters the match pool has passed the comparison
`max_val >= threshold`, which an IEEE `NaN` never passes, so the pooled scores
are totally ordered and the rational model is faithful for them.
-/

/-! ## Detection model (`src/detection.rs`)

`type BoundingBox = (Point, Point); type MatchResult = (BoundingBox, f64)`.
`Point` carries `i32` coordinates; we model them as unbounded integers (no
coordinate arithmetic in the source comes near the `i32` range). -/

/-- `opencv::core::Point`: a pair of integer pixel coordinates. -/
structure Pt where
  x : Int
  y : Int
deriving DecidableEq, Repr

/-- `type BoundingBox = (Point, Point)` — (top-left, bottom-right). -/
abbrev BoundingBox := Pt × Pt

/-- `type MatchResult = (BoundingBox, f64)` — bounding box and confidence. -/
abbrev MatchResult := BoundingBox × ℚ

/-- The comparator passed to `matches.sort_by` in `detect_needle_in_haystack`:
`|a, b| b.1.partial_cmp(&a.1).unwrap_or(Equal)`, i.e. descending confidence.
Rust's `sort_by` is a stable sort, modelled below by `List.mergeSort` with this
relation: `confGe a b` holds when `a` may stay before `b`. -/
def confGe (a b : MatchResult) : Bool :=
  decide (b.2 ≤ a.2)

/-- Oracle bundle for the OpenCV calls made by `detect_needle_in_haystack`,
indexed where relevant by the scale-loop step.  `S` is the type of the mutable
similarity surface (`result : Mat`).

* `resize step` models `imgproc::resize(needle, &mut scaled_needle, scaled_size, ...)?`
  at that step, returning the scaled needle's `(cols, rows)`; its error is
  propagated by `?` in the source.
* `matchTemplate step` models `imgproc::match_template(haystack, &scaled_needle,
  &mut result, TM_CCORR_NORMED, ...)`, returning the initial surface; its error
  is caught in the source (`Err(e) => { log; continue }`).
* `minMaxLoc surf` models `core::min_max_loc(&result, ...)?`, returning
  `(max_val, max_loc)`; its error is propagated by `?`.
* `zeroRect surf (x1, y1, x2, y2)` models `imgproc::rectangle(&mut result, rect,
  Scalar::all(0.0), -1, ...)?` on the rectangle computed in the source; its
  error is propagated by `?`.
* `surfCols`/`surfRows` model `result.cols()`/`result.rows()`. -/
structure DetectEnv (S : Type) where
  resize : Nat → Except String (Int × Int)
  matchTemplate : Nat → Except String S
  minMaxLoc : S → Except String (ℚ × Pt)
  zeroRect : S → Int × Int × Int × Int → Except String S
  surfCols : S → Int
  surfRows : S → Int

/-- The inner `for _ in 0..num_matches` loop of `detect_needle_in_haystack`
(source lines 70–117), at one scale.  `size = (cols, rows)` of the scaled
needle, `fuel` counts the remaining iterations (initially `num_matches`),
`acc` is the `matches` vector accumulated so far (across scales).  Note that
the source pushes a match and only then compares `matches.len() == num_matches`
for the early `break`; when `acc` already holds `num_matches` or more entries on
entry (possible at a later scale), the equality never fires and the loop keeps
pushing — the model reproduces this. -/
def innerLoop {S : Type} (env : DetectEnv S) (numMatches : Nat) (threshold : ℚ)
    (size : Int × Int) :
    Nat → S → List MatchResult → Except String (List MatchResult)
  | 0, _, acc => .ok acc
  | fuel + 1, surface, acc =>
    match env.minMaxLoc surface with
    | .error e => .error e
    | .ok (maxVal, maxLoc) =>
      if maxVal ≥ threshold then
        let topLeft := maxLoc
        let bottomRight : Pt := ⟨topLeft.x + size.1, topLeft.y + size.2⟩
        let acc' := acc ++ [((topLeft, bottomRight), maxVal)]
        let x1 := max (maxLoc.x - Int.tdiv size.1 4) 0
        let y1 := max (maxLoc.y - Int.tdiv size.2 4) 0
        let x2 := min (x1 + size.1 + Int.tdiv size.1 2) (env.surfCols surface)
        let y2 := min (y1 + size.2 + Int.tdiv size.2 2) (env.surfRows surface)
        let next : Except String S :=
          if x2 > x1 ∧ y2 > y1 then env.zeroRect surface (x1, y1, x2, y2)
          else .ok surface
        match next with
        | .error e => .error e
        | .ok surface' =>
          if acc'.length = numMatches then .ok acc'
          else innerLoop env numMatches threshold size fuel surface' acc'
      else
        innerLoop env numMatches threshold size fuel surface acc

/-- The outer `for step in 0..=scale_steps` loop of `detect_needle_in_haystack`
(source lines 35–118), iterating over the list of step indices.  A `resize`
failure is propagated (`?` in the source); a `matchTemplate` failure is logged
and skipped with `continue`. -/
def scaleLoop {S : Type} (env : DetectEnv S) (numMatches : Nat) (threshold : ℚ) :
    List Nat → List MatchResult → Except String (List MatchResult)
  | [], acc => .ok acc
  | step :: rest, acc =>
    match env.resize step with
    | .error e => .error e
    | .ok size =>
      match env.matchTemplate step with
      | .error _ => scaleLoop env numMatches threshold rest acc
      | .ok surface =>
        match innerLoop env numMatches threshold size numMatches surface acc with
        | .error e => .error e
        | .ok acc' => scaleLoop env numMatches threshold rest acc'

/-- `detect_needle_in_haystack` (source lines 22–127): run the scale loop over
steps `0, …, scale_steps`, then
`matches.sort_by(|a, b| b.1.partial_cmp(&a.1).unwrap_or(Equal))` (a stable sort
by descending confidence) and `matches.truncate(num_matches)`. -/
def detect_needle_in_haystack {S : Type} (env : DetectEnv S) (numMatches : Nat)
    (scaleSteps : Nat) (threshold : ℚ) : Except String (List MatchResult) :=
  match scaleLoop env numMatches threshold (List.range (scaleSteps + 1)) [] with
  | .error e => .error e
  | .ok pool => .ok ((pool.mergeSort confGe).take numMatches)

/-! ### Total-oracle variant of the detection loops

When every OpenCV call except `match_template` succeeds, the detection call
cannot fail and its match pool is the straightforward fold that skips exactly
the scales whose correlation step failed.  `mkTotalEnv` builds a `DetectEnv`
from total functions for the always-succeeding calls; `innerLoopTotal` and
`collectPool` are the corresponding pure loops. -/

/-- A `DetectEnv` in which `resize`, `min_max_loc` and `rectangle` always
succeed; only `match_template` may fail. -/
def mkTotalEnv {S : Type} (resize : Nat → Int × Int)
    (matchT : Nat → Except String S) (minMax : S → ℚ × Pt)
    (zero : S → Int × Int × Int × Int → S) (cols rows : S → Int) : DetectEnv S where
  resize := fun step => .ok (resize step)
  matchTemplate := matchT
  minMaxLoc := fun s => .ok (minMax s)
  zeroRect := fun s r => .ok (zero s r)
  surfCols := cols
  surfRows := rows

/-- Pure version of `innerLoop` for a total oracle. -/
def innerLoopTotal {S : Type} (minMax : S → ℚ × Pt)
    (zero : S → Int × Int × Int × Int → S) (cols rows : S → Int)
    (numMatches : Nat) (threshold : ℚ) (size : Int × Int) :
    Nat → S → List MatchResult → List MatchResult
  | 0, _, acc => acc
  | fuel + 1, surface, acc =>
    let mm := minMax surface
    if mm.1 ≥ threshold then
      let bottomRight : Pt := ⟨mm.2.x + size.1, mm.2.y + size.2⟩
      let acc' := acc ++ [((mm.2, bottomRight), mm.1)]
      let x1 := max (mm.2.x - Int.tdiv size.1 4) 0
      let y1 := max (mm.2.y - Int.tdiv size.2 4) 0
      let x2 := min (x1 + size.1 + Int.tdiv size.1 2) (cols surface)
      let y2 := min (y1 + size.2 + Int.tdiv size.2 2) (rows surface)
      let surface' := if x2 > x1 ∧ y2 > y1 then zero surface (x1, y1, x2, y2) else surface
      if acc'.length = numMatches then acc'
      else innerLoopTotal minMax zero cols rows numMatches threshold size fuel surface' acc'
    else
      innerLoopTotal minMax zero cols rows numMatches threshold size fuel surface acc

/-- The match pool collected over a list of scale steps by a total-oracle
detection run: scales whose `match_template` fails contribute nothing, scales
whose `match_template` succeeds contribute through the inner loop. -/
def collectPool {S : Type} (resize : Nat → Int × Int)
    (matchT : Nat → Except String S) (minMax : S → ℚ × Pt)
    (zero : S → Int × Int × Int × Int → S) (cols rows : S → Int)
    (numMatches : Nat) (threshold : ℚ) :
    List Nat → List MatchResult → List MatchResult
  | [], acc => acc
  | step :: rest, acc =>
    match matchT step with
    | .error _ => collectPool resize matchT minMax zero cols rows numMatches threshold rest acc
    | .ok surface =>
      collectPool resize matchT minMax zero cols rows numMatches threshold rest
        (innerLoopTotal minMax zero cols rows numMatches threshold (resize step)
          numMatches surface acc)

/-! ### The scale grid (`src/detection.rs` lines 32–40) in `f64` arithmetic

The source computes
`let scale_step = (max_scale - min_scale) / (scale_steps as f64);`
`let scale = min_scale + (step as f64 * scale_step);`
in IEEE-754 binary64.  `FVal` is an exact-rational idealisation of binary64:
finite results are kept exact instead of rounded, but the special values and
their propagation rules (`x / +0`, `0 * ±∞`, `NaN` absorption) follow
IEEE-754 — the behaviour at `scale_steps = 0` depends only on those rules,
not on rounding.  Only the positive zero produced by `0usize as f64` arises
as a divisor here. -/

/-- An idealised IEEE-754 binary64 value: an exact finite rational, an
infinity, or `NaN`. -/
inductive FVal
  | finite (q : ℚ)
  | posInf
  | negInf
  | nan
deriving DecidableEq, Repr

/-- IEEE subtraction on `FVal` (finite results unrounded). -/
def FVal.sub : FVal → FVal → FVal
  | .finite a, .finite b => .finite (a - b)
  | .finite _, .posInf => .negInf
  | .finite _, .negInf => .posInf
  | .posInf, .finite _ => .posInf
  | .negInf, .finite _ => .negInf
  | .posInf, .negInf => .posInf
  | .negInf, .posInf => .negInf
  | .posInf, .posInf => .nan
  | .negInf, .negInf => .nan
  | .nan, _ => .nan
  | _, .nan => .nan

/-- IEEE division on `FVal` (finite results unrounded; the zero divisor is the
positive zero `+0.0`, which is the value of `0usize as f64`). -/
def FVal.div : FVal → FVal → FVal
  | .finite a, .finite b =>
    if b = 0 then (if a = 0 then .nan else if a > 0 then .posInf else .negInf)
    else .finite (a / b)
  | .finite _, .posInf => .finite 0
  | .finite _, .negInf => .finite 0
  | .posInf, .finite b => if b ≥ 0 then .posInf else .negInf
  | .negInf, .finite b => if b ≥ 0 then .negInf else .posInf
  | .posInf, .posInf => .nan
  | .posInf, .negInf => .nan
  | .negInf, .posInf => .nan
  | .negInf, .negInf => .nan
  | .nan, _ => .nan
  | _, .nan => .nan

/-- IEEE multiplication on `FVal` (finite results unrounded): in particular
`0 * ±∞ = NaN`. -/
def FVal.mul : FVal → FVal → FVal
  | .finite a, .finite b => .finite (a * b)
  | .finite a, .posInf => if a = 0 then .nan else if a > 0 then .posInf else .negInf
  | .finite a, .negInf => if a = 0 then .nan else if a > 0 then .negInf else .posInf
  | .posInf, .finite b => if b = 0 then .nan else if b > 0 then .posInf else .negInf
  | .negInf, .finite b => if b = 0 then .nan else if b > 0 then .negInf else .posInf
  | .posInf, .posInf => .posInf
  | .posInf, .negInf => .negInf
  | .negInf, .posInf => .negInf
  | .negInf, .negInf => .posInf
  | .nan, _ => .nan
  | _, .nan => .nan

/-- IEEE addition on `FVal` (finite results unrounded): in particular
`x + NaN = NaN`. -/
def FVal.add : FVal → FVal → FVal
  | .finite a, .finite b => .finite (a + b)
  | .finite _, .posInf => .posInf
  | .finite _, .negInf => .negInf
  | .posInf, .finite _ => .posInf
  | .negInf, .finite _ => .negInf
  | .posInf, .posInf => .posInf
  | .negInf, .negInf => .negInf
  | .posInf, .negInf => .nan
  | .negInf, .posInf => .nan
  | .nan, _ => .nan
  | _, .nan => .nan

/-- `let scale_step = (max_scale - min_scale) / (scale_steps as f64);`
(source line 32). -/
def scale_step_of (min_scale max_scale : FVal) (scale_steps : Nat) : FVal :=
  (max_scale.sub min_scale).div (.finite scale_steps)

/-- `let scale = min_scale + (step as f64 * scale_step);` (source line 36). -/
def scale_at (min_scale max_scale : FVal) (scale_steps step : Nat) : FVal :=
  min_scale.add ((FVal.finite step).mul (scale_step_of min_scale max_scale scale_steps))

/-! ## Players and completion verification (`src/lib.rs`) -/

/-- `pub struct Player` (source lines 27–34). -/
structure Player where
  uid : Nat
  username : String
  profile_url : String
  downloaded_fp : Option String
  completed : Bool
deriving DecidableEq, Repr

/-- `Player::new` (source lines 37–45). -/
def Player.new (uid : Nat) (username profile_url : String) : Player :=
  { uid, username, profile_url, downloaded_fp := none, completed := false }

/-- `Player::download_profile_picture` (source lines 47–56): return the cached
path if present, otherwise fetch (modelled by the `fetch` oracle, standing for
`download_image(&self.profile_url)`), cache and return it.  The successful
case is modelled; a fetch failure propagates out of `verify_player_completion`
before any state of interest changes. -/
def Player.download_profile_picture (fetch : String → String) (p : Player) :
    Player × String :=
  match p.downloaded_fp with
  | some v => (p, v)
  | none =>
    let fp := fetch p.profile_url
    ({ p with downloaded_fp := some fp }, fp)

/-- `verify_player_completion` (source lines 67–109), parameterised by the two
detection outcomes:

* `markers` — the result of
  `detect_needle_in_haystack(&solved, &haystack, 30, 0.1, 1.0, 100, 1.0)?`
  (the completion-marker pass);
* `detectAvatar path` — the result of
  `detect_needle_in_haystack(&avatar, &haystack, 1, 0.1, 1.0, 100, 0.84)?`
  for the avatar image stored at `path`.

If `markers` is empty the function returns `false` immediately, before
`download_profile_picture` is called (the player is returned untouched).
Otherwise the avatar is resolved; with exactly one avatar match the horizontal
center `(x_coord_1 + x_coord_2) / 2` (`i32` division, truncation toward zero)
is tested for strict containment in some marker's horizontal span, the result
is assigned to `player.completed`, and returned.  Any other number of avatar
matches yields `false` without touching `player.completed`. -/
def verify_player_completion (fetch : String → String) (markers : List MatchResult)
    (detectAvatar : String → List MatchResult) (player : Player) : Player × Bool :=
  if markers.isEmpty then (player, false)
  else
    let resolved := player.download_profile_picture fetch
    let found := detectAvatar resolved.2
    match found with
    | [m] =>
      let center := Int.tdiv (m.1.1.x + m.1.2.x) 2
      let completed := markers.any fun f => decide (f.1.1.x < center) && decide (f.1.2.x > center)
      ({ resolved.1 with completed := completed }, completed)
    | _ => (resolved.1, false)

/-! ## Duration formatting (`src/lib.rs` lines 112–150) -/

/-- Rust's `{:03}` format specifier on an unsigned integer: left-pad the
decimal representation with zeros to at least three characters. -/
def pad3 (n : Nat) : String :=
  if n < 10 then "00" ++ toString n
  else if n < 100 then "0" ++ toString n
  else toString n

/-- `format_duration` (source lines 112–150).  A `std::time::Duration` enters
as its `as_secs()` and `subsec_millis()` components. -/
def format_duration (total_seconds milliseconds : Nat) : String :=
  let hours := total_seconds / 3600
  let remaining_seconds_after_hours := total_seconds % 3600
  let minutes := remaining_seconds_after_hours / 60
  let seconds := remaining_seconds_after_hours % 60
  let time_parts : List String :=
    (if hours > 0 then [toString hours ++ " hour" ++ (if hours ≠ 1 then "s" else "")] else [])
    ++ (if minutes > 0 then [toString minutes ++ " minute" ++ (if minutes ≠ 1 then "s" else "")] else [])
    ++ [toString seconds ++ "." ++ pad3 milliseconds ++ " second" ++ (if seconds ≠ 1 then "s" else "")]
  match time_parts with
  | [single] => single
  | parts => String.intercalate ", " parts.dropLast ++ " and " ++ (parts.getLast?.getD "")

/-- Pluralised unit string: `"{v} {unit}{s?}"` with a trailing `"s"` exactly
when `v ≠ 1`, as described by the spec's formatting contract. -/
def unitPart (v : Nat) (unit : String) : String :=
  toString v ++ " " ++ unit ++ (if v ≠ 1 then "s" else "")

/-- Joining rule from the spec's formatting contract: multiple parts are joined
with commas and the last with `" and "`. -/
def joinParts : List String → String
  | [] => ""
  | [x] => x
  | [x, y] => x ++ " and " ++ y
  | x :: y :: z :: rest => x ++ ", " ++ joinParts (y :: z :: rest)

/-- The duration-formatting contract as the spec words it, for the refinement
comparison with `format_duration`: given hours/minutes/seconds/milliseconds
components, list only the non-zero larger units (hours omitted if zero, minutes
omitted if zero) but always include the seconds-and-milliseconds part rendered
as `"S.mmm second(s)"`, pluralise each unit (`value ≠ 1` gets a trailing "s"),
and join multiple parts with commas and the last with `" and "`. -/
def spec_format_duration (hours minutes seconds milliseconds : Nat) : String :=
  let larger := [(hours, "hour"), (minutes, "minute")].filter (fun p => p.1 > 0)
  let secondsPart :=
    toString seconds ++ "." ++ pad3 milliseconds ++ " second"
      ++ (if seconds ≠ 1 then "s" else "")
  joinParts (larger.map (fun p => unitPart p.1 p.2) ++ [secondsPart])

/-! ## Retry wrappers (`src/main.rs`) -/

/-- Outcome of a retried operation, abstracting the two Rust error shapes
(`MemberError::RetryExhausted(msg)` for the member site, an
`std::io::Error` with a "Failed to verify completion after … retries" message
for the verification site).  Both format the last underlying error into the
message; the model carries it directly. -/
inductive RetryResult (E A : Type)
  | ok (a : A)
  | exhausted (last : Option E)
deriving DecidableEq, Repr

/-- `Handler::get_member_with_retry` (source lines 95–126), from loop counter
`retry` with the `last_error` accumulated so far.  Per attempt the fallible
call `guild_id.member(&ctx.http, user_id)` is modelled by `op retry`; the
returned triple is (sleep durations in seconds, number of attempts made,
outcome).  On failure the source sleeps `1 << retry` seconds only when
`retry < MAX_RETRIES - 1`. -/
def get_member_with_retry {E A : Type} (op : Nat → Except E A) (maxRetries : Nat)
    (retry : Nat) (lastError : Option E) : List Nat × Nat × RetryResult E A :=
  if _h : retry < maxRetries then
    match op retry with
    | .ok member => ([], 1, .ok member)
    | .error e =>
      let rest := get_member_with_retry op maxRetries (retry + 1) (some e)
      ((if retry < maxRetries - 1 then [2 ^ retry] else []) ++ rest.1,
        rest.2.1 + 1, rest.2.2)
  else ([], 0, .exhausted lastError)
termination_by maxRetries - retry
decreasing_by omega

/-- `Handler::verify_completion_with_retry` (source lines 202–234), from loop
counter `retries` with the `last_error` accumulated so far.  Per attempt the
fallible call `verify_player_completion(player, …)` is modelled by
`op retries`.  On failure the source increments `retries` first and then sleeps
`1 << retries` seconds unconditionally — also after the final attempt. -/
def verify_completion_with_retry {E A : Type} (op : Nat → Except E A)
    (maxRetries : Nat) (retries : Nat) (lastError : Option E) :
    List Nat × Nat × RetryResult E A :=
  if _h : retries < maxRetries then
    match op retries with
    | .ok completed => ([], 1, .ok completed)
    | .error e =>
      let rest := verify_completion_with_retry op maxRetries (retries + 1) (some e)
      (2 ^ (retries + 1) :: rest.1, rest.2.1 + 1, rest.2.2)
  else ([], 0, .exhausted lastError)
termination_by maxRetries - retries
decreasing_by omega

/-! ## Game-state tracking (`src/main.rs`)

The monotonic clock (`Instant`) is modelled as a natural number of elapsed
time units; `Instant::now().duration_since(start)` is `now - start` (saturating
like the Rust call, which never goes negative on a monotonic clock).  The
wall-clock creation timestamp enters `GameState::is_current` only through the
Sydney-timezone calendar date (`created_sydney.date_naive()`), so it is
modelled directly as an integer day number `created_day`, compared with the
current day `today`. -/

/-- `struct GameState` (source lines 24–32).  `user_id` is omitted: it is only
ever read back for logging. -/
structure GameState where
  last_start_time : Nat
  total_active_time : Nat
  completion_msg_id : Option Nat
  created_day : Int
  completed : Bool
  channel_id : Option Nat
deriving DecidableEq, Repr

/-- `GameState::new` (source lines 36–46). -/
def GameState.new (now : Nat) (today : Int) : GameState :=
  { last_start_time := now, total_active_time := 0, completion_msg_id := none,
    created_day := today, completed := false, channel_id := none }

/-- `GameState::is_current` (source lines 49–53): the creation date equals
today's date in the Sydney timezone. -/
def GameState.is_current (gs : GameState) (today : Int) : Bool :=
  decide (gs.created_day = today)

/-- `GameState::update_active_time` (source lines 56–59):
`total_active_time += now − last_start_time; last_start_time = now`. -/
def GameState.update_active_time (gs : GameState) (now : Nat) : GameState :=
  { gs with total_active_time := gs.total_active_time + (now - gs.last_start_time),
            last_start_time := now }

/-- The `Some(activity)` arm of `Handler::presence_update` (source lines
288–319): the user is playing Wordle.  `st` is the map entry for the user. -/
def presencePlaying (st : Option GameState) (now : Nat) (today : Int) :
    Option GameState :=
  match st with
  | some gs => if ¬ gs.is_current today then some (GameState.new now today) else some gs
  | none => some (GameState.new now today)

/-- The `None` arm of `Handler::presence_update` (source lines 320–338): the
user is not (or no longer) playing Wordle.  Only the `completed` flag is
consulted; `is_current` is not checked on this path. -/
def presenceStopped (st : Option GameState) (now : Nat) : Option GameState :=
  match st with
  | some gs => if ¬ gs.completed then some (gs.update_active_time now) else some gs
  | none => none

/-- The notification activity performed for one tracked player by the message
handler. -/
inductive NotifyAction
  | noAction
  | send
  | update (msgId : Nat)
deriving DecidableEq, Repr

/-- One iteration of the per-player loop in `Handler::message` (source lines
372–447), for the record `gs` of one tracked user.

* `memberLookup` models `Self::get_member_with_retry(&ctx, msg.guild_id, *user_id)`;
  on error the player is skipped.
* `verifyResult` models `Self::verify_completion_with_retry(&mut player, &haystack_fp, 5)`.
* `sendOutcome` models `channel_id.send_message(...)`, yielding the new
  message id on success (stored in `completion_msg_id` by
  `send_completion_message`).

Records that are already completed or not from today are skipped before any
lookup (source lines 377–385). -/
def messageStep (gs : GameState) (today : Int) (now : Nat) (channel : Nat)
    (memberLookup : Except Unit Unit) (verifyResult : Except Unit Bool)
    (sendOutcome : Except Unit Nat) : GameState × NotifyAction :=
  if gs.completed || ¬ gs.is_current today then (gs, .noAction)
  else
    match memberLookup with
    | .error _ => (gs, .noAction)
    | .ok _ =>
      match verifyResult with
      | .ok true =>
        let gs1 := { gs with completed := true, channel_id := some channel }
        let gs2 := gs1.update_active_time now
        match gs2.completion_msg_id with
        | some msgId => (gs2, .update msgId)
        | none =>
          match sendOutcome with
          | .ok newId => ({ gs2 with completion_msg_id := some newId }, .send)
          | .error _ => (gs2, .send)
      | .ok false => (gs, .noAction)
      | .error _ => (gs, .noAction)

/-! ## Theorems -/

/-- C5: the claim says `scale_steps = 0` performs exactly one template search
at scale factor `scale_min`.  The single loop iteration (`for step in 0..=0`)
does run, but the `f64` computation divides by `scale_steps as f64 = 0.0`,
giving `±∞` (or `NaN` when `max_scale = min_scale`), and
`0.0 * ±∞ = NaN`, so the scale used is `NaN`, not `scale_min`; the resized
dimensions `(cols as f64 * NaN) as i32` then collapse to `0`.  This theorem
evaluates the embedded scale computation at the failing input
`scale_steps = 0`, `step = 0` for every pair of finite scale bounds. -/
theorem c5_scale_steps_zero_gives_nan :
    ∀ a b : ℚ, scale_at (.finite a) (.finite b) 0 0 = FVal.nan ∧
      FVal.nan ≠ FVal.finite a := by
  intro a b
  refine ⟨?_, by simp⟩
  simp only [scale_at, scale_step_of, FVal.sub, Nat.cast_zero]
  by_cases hba : b - a = 0
  · simp [FVal.div, hba, FVal.mul, FVal.add]
  · by_cases hpos : b - a > 0
    · simp [FVal.div, hba, hpos, FVal.mul, FVal.add]
    · simp [FVal.div, hba, hpos, FVal.mul, FVal.add]

/-- C3 counterexample: a record created on day `0`, observed on day `1`
(`is_current` is `false`, so the record is stale) and not completed, still has
the elapsed attempt folded into its accumulated total by the stop-playing
presence path — the source checks only `completed` there, never `is_current` —
contradicting the claim that no time is folded for a stale record. -/
theorem c3_counterexample :
    (GameState.new 0 0).is_current 1 = false ∧
    (GameState.new 0 0).completed = false ∧
    presenceStopped (some (GameState.new 0 0)) 5 =
      some { last_start_time := 5, total_active_time := 5, completion_msg_id := none,
             created_day := 0, completed := false, channel_id := none } ∧
    (5 : Nat) ≠ 0 := by
  refine ⟨by decide, by decide, ?_, by decide⟩
  simp [presenceStopped, GameState.new, GameState.update_active_time]

/-- C3 (amended): on a stop-playing presence event, the elapsed attempt time
is folded into the accumulated total (`accumulated += now − start`, then
`start := now`) exactly when a record exists for the identity and it is not
completed; whether the record is from the current calendar day is not
consulted on this path, so a stale (previous-day) record also has its time
folded. -/
theorem c3_fold_on_stop :
    ∀ (gs : GameState) (now : Nat),
      (gs.completed = false →
        presenceStopped (some gs) now =
          some { gs with
                 total_active_time := gs.total_active_time + (now - gs.last_start_time),
                 last_start_time := now }) ∧
      (gs.completed = true → presenceStopped (some gs) now = some gs) ∧
      presenceStopped none now = none := by
  intro gs now
  refine ⟨fun hc => ?_, fun hc => ?_, rfl⟩
  · simp [presenceStopped, hc, GameState.update_active_time]
  · simp [presenceStopped, hc]

/-- C3 witness: the amended theorem applied to a concrete non-completed
record. -/
theorem c3_fold_on_stop_witness :
    presenceStopped (some (GameState.new 0 0)) 7 =
      some { last_start_time := 7, total_active_time := 7, completion_msg_id := none,
             created_day := 0, completed := false, channel_id := none } := by
  have h := (c3_fold_on_stop (GameState.new 0 0) 7).1 rfl
  simpa [GameState.new] using h

/-- C8: once a record's `completed` flag is set, a stop-playing presence event
is a no-op, a start-playing presence event on the same calendar day leaves the
record untouched, and the attachment-handling path skips the record before any
lookup — so no event changes its accumulated active time and no notification
action (send or update) is produced for it. -/
theorem c8_completed_terminal :
    ∀ (gs : GameState) (today : Int) (now : Nat) (channel : Nat)
      (memberLookup : Except Unit Unit) (verifyResult : Except Unit Bool)
      (sendOutcome : Except Unit Nat),
      gs.completed = true →
      messageStep gs today now channel memberLookup verifyResult sendOutcome =
        (gs, .noAction) ∧
      presenceStopped (some gs) now = some gs ∧
      (gs.is_current today = true → presencePlaying (some gs) now today = some gs) := by
  intro gs today now channel ml vr so hc
  refine ⟨?_, ?_, fun hcur => ?_⟩
  · simp [messageStep, hc]
  · simp [presenceStopped, hc]
  · simp [presencePlaying, hcur]

/-- C8 witness: the theorem applied to a concrete completed record of the
current day. -/
theorem c8_completed_terminal_witness :
    messageStep { last_start_time := 0, total_active_time := 3, completion_msg_id := some 9,
                  created_day := 0, completed := true, channel_id := some 4 }
        0 10 4 (.ok ()) (.ok true) (.ok 1) =
      ({ last_start_time := 0, total_active_time := 3, completion_msg_id := some 9,
         created_day := 0, completed := true, channel_id := some 4 }, .noAction) ∧
    presenceStopped
        (some { last_start_time := 0, total_active_time := 3, completion_msg_id := some 9,
                created_day := 0, completed := true, channel_id := some 4 }) 10 =
      some { last_start_time := 0, total_active_time := 3, completion_msg_id := some 9,
             created_day := 0, completed := true, channel_id := some 4 } := by
  have h := c8_completed_terminal
    { last_start_time := 0, total_active_time := 3, completion_msg_id := some 9,
      created_day := 0, completed := true, channel_id := some 4 }
    0 10 4 (.ok ()) (.ok true) (.ok 1) rfl
  exact ⟨h.1, h.2.1⟩

/-- C1: completion decision of `verify_player_completion`.  With no markers
detected the result is `false` and the player is returned untouched (in
particular the avatar image is never resolved: `downloaded_fp` is unchanged).
With markers present and exactly one avatar match `m`, the result is `true`
iff some marker's bounding box horizontally strictly contains the avatar's
horizontal center `(m.left.x + m.right.x) / 2` (truncating integer division);
with zero avatar matches the result is `false`.  The claim's two concrete
instances — marker spanning x∈[100,200] with avatar x∈[140,160] (center 150,
inside) and with avatar x∈[300,320] (center 310, outside) — evaluate to `true`
and `false` respectively. -/
theorem c1_completion_decision :
    ∀ (fetch : String → String) (markers : List MatchResult)
      (detectAvatar : String → List MatchResult) (p : Player),
      (markers = [] → verify_player_completion fetch markers detectAvatar p = (p, false)) ∧
      (∀ m : MatchResult, markers ≠ [] →
        detectAvatar (p.download_profile_picture fetch).2 = [m] →
        ((verify_player_completion fetch markers detectAvatar p).2 = true ↔
          ∃ f ∈ markers, f.1.1.x < Int.tdiv (m.1.1.x + m.1.2.x) 2 ∧
            Int.tdiv (m.1.1.x + m.1.2.x) 2 < f.1.2.x)) ∧
      (markers ≠ [] → detectAvatar (p.download_profile_picture fetch).2 = [] →
        (verify_player_completion fetch markers detectAvatar p).2 = false) ∧
      (verify_player_completion (fun _ => "fp") [((⟨100, 0⟩, ⟨200, 0⟩), 1)]
          (fun _ => [((⟨140, 0⟩, ⟨160, 0⟩), 1)]) (Player.new 0 "user" "url")).2 = true ∧
      (verify_player_completion (fun _ => "fp") [((⟨100, 0⟩, ⟨200, 0⟩), 1)]
          (fun _ => [((⟨300, 0⟩, ⟨320, 0⟩), 1)]) (Player.new 0 "user" "url")).2 = false := by
  intro fetch markers detectAvatar p
  refine ⟨fun hm => ?_, fun m hm hav => ?_, fun hm hav => ?_, rfl, rfl⟩
  · subst hm; simp [verify_player_completion]
  · have hie : markers.isEmpty = false := List.isEmpty_eq_false.mpr hm
    simp [verify_player_completion, hie, hav, List.any_eq_true]
  · have hie : markers.isEmpty = false := List.isEmpty_eq_false.mpr hm
    simp [verify_player_completion, hie, hav]

/-- C1 witness: the theorem applied to a run with no detected markers — result
`false`, player untouched. -/
theorem c1_completion_decision_witness :
    verify_player_completion (fun _ => "fp") [] (fun _ => [])
      (Player.new 0 "user" "url") = (Player.new 0 "user" "url", false) :=
  (c1_completion_decision (fun _ => "fp") [] (fun _ => []) (Player.new 0 "user" "url")).1 rfl

/-- C10: whenever `verify_player_completion` reaches the exactly-one-avatar
branch, it assigns the containment decision to `player.completed`
unconditionally — including `false` — so a player whose flag was `true` before
the call has it reset to `false` when the decision is negative.  The second
conjunct shows this reset at a concrete input (one marker x∈[100,200], avatar
x∈[300,320], prior `completed = true`). -/
theorem c10_completed_flag_unconditional :
    (∀ (fetch : String → String) (markers : List MatchResult)
      (detectAvatar : String → List MatchResult) (p : Player) (m : MatchResult),
      markers ≠ [] →
      detectAvatar (p.download_profile_picture fetch).2 = [m] →
      (verify_player_completion fetch markers detectAvatar p).1.completed =
        markers.any (fun f => decide (f.1.1.x < Int.tdiv (m.1.1.x + m.1.2.x) 2) &&
          decide (f.1.2.x > Int.tdiv (m.1.1.x + m.1.2.x) 2))) ∧
    ({ Player.new 0 "user" "url" with completed := true } : Player).completed = true ∧
    (verify_player_completion (fun _ => "fp") [((⟨100, 0⟩, ⟨200, 0⟩), 1)]
        (fun _ => [((⟨300, 0⟩, ⟨320, 0⟩), 1)])
        { Player.new 0 "user" "url" with completed := true }).1.completed = false := by
  refine ⟨fun fetch markers detectAvatar p m hm hav => ?_, rfl, rfl⟩
  have hie : markers.isEmpty = false := List.isEmpty_eq_false.mpr hm
  simp [verify_player_completion, hie, hav]

/-- C10 witness: the universal conjunct applied at the concrete reset input. -/
theorem c10_completed_flag_unconditional_witness :
    (verify_player_completion (fun _ => "fp") [((⟨100, 0⟩, ⟨200, 0⟩), 1)]
        (fun _ => [((⟨300, 0⟩, ⟨320, 0⟩), 1)])
        { Player.new 0 "user" "url" with completed := true }).1.completed =
      ([((⟨100, 0⟩, ⟨200, 0⟩), 1)] : List MatchResult).any
        (fun f => decide (f.1.1.x < Int.tdiv (300 + 320) 2) &&
          decide (f.1.2.x > Int.tdiv (300 + 320) 2)) :=
  c10_completed_flag_unconditional.1 (fun _ => "fp") [((⟨100, 0⟩, ⟨200, 0⟩), 1)]
    (fun _ => [((⟨300, 0⟩, ⟨320, 0⟩), 1)])
    { Player.new 0 "user" "url" with completed := true }
    ((⟨300, 0⟩, ⟨320, 0⟩), 1) (by simp) rfl

/-- C6: a successful `detect_needle_in_haystack` call never returns more than
`num_matches` results, whatever the oracle behaviour (number of instances,
scales, or pool size): the final `truncate(num_matches)` bounds the output. -/
theorem c6_count_bound :
    ∀ {S : Type} (env : DetectEnv S) (numMatches scaleSteps : Nat) (threshold : ℚ)
      (res : List MatchResult),
      detect_needle_in_haystack env numMatches scaleSteps threshold = .ok res →
      res.length ≤ numMatches := by
  intro S env numMatches scaleSteps threshold res h
  unfold detect_needle_in_haystack at h
  cases hp : scaleLoop env numMatches threshold (List.range (scaleSteps + 1)) [] with
  | error e => rw [hp] at h; cases h
  | ok pool =>
    rw [hp] at h
    cases h
    exact List.length_take_le numMatches (pool.mergeSort confGe)

/-- An always-succeeding oracle over a trivial one-point surface type, used to
instantiate detection theorems at a concrete input. -/
def trivialEnv : DetectEnv Unit :=
  mkTotalEnv (fun _ => (1, 1)) (fun _ => .ok ()) (fun _ => ((0 : ℚ), ⟨0, 0⟩))
    (fun s _ => s) (fun _ => 10) (fun _ => 10)

/-- C6 witness: the bound at a concrete successful call. -/
theorem c6_count_bound_witness :
    detect_needle_in_haystack trivialEnv 1 0 1 = .ok [] ∧
    ([] : List MatchResult).length ≤ 1 := by
  have h0 : detect_needle_in_haystack trivialEnv 1 0 1 = .ok [] := by
    simp [detect_needle_in_haystack, scaleLoop, innerLoop, trivialEnv, mkTotalEnv,
      List.range_succ]
    norm_num [List.mergeSort_nil]
  exact ⟨h0, c6_count_bound trivialEnv 1 0 1 [] h0⟩

/-- The descending-confidence comparator is transitive. -/
theorem confGe_trans : ∀ a b c : MatchResult, confGe a b → confGe b c → confGe a c := by
  intro a b c hab hbc
  simp only [confGe, decide_eq_true_iff] at *
  exact le_trans hbc hab

/-- The descending-confidence comparator is total. -/
theorem confGe_total : ∀ a b : MatchResult, confGe a b || confGe b a := by
  intro a b
  simp only [confGe, Bool.or_eq_true, decide_eq_true_iff]
  exact le_total b.2 a.2

/-- Every match accumulated by the inner suppression loop beyond the incoming
accumulator was pushed under the guard `max_val >= threshold`. -/
theorem innerLoop_conf_ge {S : Type} (env : DetectEnv S) (numMatches : Nat)
    (threshold : ℚ) (size : Int × Int) :
    ∀ (fuel : Nat) (surface : S) (acc res : List MatchResult),
      innerLoop env numMatches threshold size fuel surface acc = .ok res →
      (∀ m ∈ acc, threshold ≤ m.2) → ∀ m ∈ res, threshold ≤ m.2 := by
  intro fuel
  induction fuel with
  | zero =>
    intro surface acc res h hacc
    simp only [innerLoop, Except.ok.injEq] at h
    subst h
    exact hacc
  | succ fuel ih =>
    intro surface acc res h hacc
    cases hmm : env.minMaxLoc surface with
    | error e =>
      rw [innerLoop, hmm] at h
      simp at h
    | ok v =>
      obtain ⟨maxVal, maxLoc⟩ := v
      rw [innerLoop] at h
      simp only [hmm] at h
      by_cases hge : maxVal ≥ threshold
      · rw [if_pos hge] at h
        have hacc' : ∀ m ∈ acc ++
            [((maxLoc, (⟨maxLoc.x + size.1, maxLoc.y + size.2⟩ : Pt)), maxVal)],
            threshold ≤ m.2 := by
          intro m hs
          rcases List.mem_append.mp hs with hl | hr
          · exact hacc m hl
          · rcases List.mem_singleton.mp hr with rfl
            exact hge
        split at h
        · simp at h
        · split at h
          · cases h
            exact hacc'
          · exact ih _ _ _ h hacc'
      · rw [if_neg hge] at h
        exact ih _ _ _ h hacc

/-- The scale loop preserves the threshold bound on the match pool. -/
theorem scaleLoop_conf_ge {S : Type} (env : DetectEnv S) (numMatches : Nat)
    (threshold : ℚ) :
    ∀ (steps : List Nat) (acc res : List MatchResult),
      scaleLoop env numMatches threshold steps acc = .ok res →
      (∀ m ∈ acc, threshold ≤ m.2) → ∀ m ∈ res, threshold ≤ m.2 := by
  intro steps
  induction steps with
  | nil =>
    intro acc res h hacc
    simp only [scaleLoop, Except.ok.injEq] at h
    subst h
    exact hacc
  | cons step rest ih =>
    intro acc res h hacc
    rw [scaleLoop] at h
    cases hrz : env.resize step with
    | error e => rw [hrz] at h; simp at h
    | ok size =>
      rw [hrz] at h
      simp only at h
      cases hmt : env.matchTemplate step with
      | error e =>
        rw [hmt] at h
        simp only at h
        exact ih _ _ h hacc
      | ok surface =>
        rw [hmt] at h
        simp only at h
        cases hil : innerLoop env numMatches threshold size numMatches surface acc with
        | error e => rw [hil] at h; simp at h
        | ok acc' =>
          rw [hil] at h
          simp only at h
          exact ih _ _ h
            (innerLoop_conf_ge env numMatches threshold size numMatches surface acc acc'
              hil hacc)

/-- Stability of the final sort of `detect_needle_in_haystack`: for every
confidence value `c`, the matches of confidence exactly `c` appear in the
sorted pool in the same relative order in which they were inserted. -/
theorem mergeSort_confGe_filter_eq (pool : List MatchResult) (c : ℚ) :
    (pool.mergeSort confGe).filter (fun m => decide (m.2 = c)) =
      pool.filter (fun m => decide (m.2 = c)) := by
  set p : MatchResult → Bool := fun m => decide (m.2 = c) with hp
  have hmemp : ∀ m ∈ pool.filter p, p m = true := fun m hm => (List.mem_filter.mp hm).2
  have hpw : (pool.filter p).Pairwise (fun a b => confGe a b = true) := by
    apply List.pairwise_of_forall_mem_list
    intro a ha b hb
    have h1 : a.2 = c := by simpa [hp] using hmemp a ha
    have h2 : b.2 = c := by simpa [hp] using hmemp b hb
    simp [confGe, h1, h2]
  have hsub : List.Sublist (pool.filter p) (pool.mergeSort confGe) :=
    List.sublist_mergeSort confGe_trans confGe_total hpw (List.filter_sublist pool)
  have hsub2 : List.Sublist ((pool.filter p).filter p) ((pool.mergeSort confGe).filter p) :=
    hsub.filter p
  rw [List.filter_eq_self.mpr hmemp] at hsub2
  have hperm : ((pool.mergeSort confGe).filter p).Perm (pool.filter p) :=
    (pool.mergeSort_perm confGe).filter p
  exact (hsub2.eq_of_length hperm.length_eq.symm).symm

/-- C7: every successful `detect_needle_in_haystack` call returns a sequence
sorted by confidence in non-increasing order, in which every match has
confidence at least `threshold`; the result is the stable descending sort of
the collected pool truncated to `num_matches`, and stability holds in the
filter sense: for each exact confidence value, the sorted pool lists the
matches of that confidence in their insertion order. -/
theorem c7_sorted_threshold_stable :
    ∀ {S : Type} (env : DetectEnv S) (numMatches scaleSteps : Nat) (threshold : ℚ)
      (res : List MatchResult),
      detect_needle_in_haystack env numMatches scaleSteps threshold = .ok res →
      res.Pairwise (fun a b => b.2 ≤ a.2) ∧
      (∀ m ∈ res, threshold ≤ m.2) ∧
      ∃ pool, scaleLoop env numMatches threshold (List.range (scaleSteps + 1)) [] = .ok pool ∧
        res = (pool.mergeSort confGe).take numMatches ∧
        ∀ c : ℚ, (pool.mergeSort confGe).filter (fun m => decide (m.2 = c)) =
          pool.filter (fun m => decide (m.2 = c)) := by
  intro S env numMatches scaleSteps threshold res h
  unfold detect_needle_in_haystack at h
  cases hp : scaleLoop env numMatches threshold (List.range (scaleSteps + 1)) [] with
  | error e => rw [hp] at h; cases h
  | ok pool =>
    rw [hp] at h
    cases h
    have hsorted : (pool.mergeSort confGe).Pairwise (fun a b => b.2 ≤ a.2) := by
      have := List.sorted_mergeSort confGe_trans confGe_total pool
      exact this.imp fun hab => by simpa [confGe] using hab
    refine ⟨?_, ?_, pool, rfl, rfl, fun c => mergeSort_confGe_filter_eq pool c⟩
    · exact hsorted.sublist (List.take_sublist numMatches _)
    · intro m hm
      have hmem : m ∈ pool := by
        have h1 : m ∈ pool.mergeSort confGe :=
          List.mem_of_mem_take hm
        exact (pool.mergeSort_perm confGe).mem_iff.mp h1
      exact scaleLoop_conf_ge env numMatches threshold _ [] pool hp (by simp) m hmem

/-- C7 witness: the theorem applied to a concrete successful call. -/
theorem c7_sorted_threshold_stable_witness :
    ([] : List MatchResult).Pairwise (fun a b => b.2 ≤ a.2) ∧
    (∀ m ∈ ([] : List MatchResult), (1 : ℚ) ≤ m.2) ∧
    ∃ pool, scaleLoop trivialEnv 1 1 (List.range (1 + 1)) [] = .ok pool ∧
      ([] : List MatchResult) = (pool.mergeSort confGe).take 1 ∧
      ∀ c : ℚ, (pool.mergeSort confGe).filter (fun m => decide (m.2 = c)) =
        pool.filter (fun m => decide (m.2 = c)) := by
  apply c7_sorted_threshold_stable trivialEnv 1 1 1 []
  simp [detect_needle_in_haystack, scaleLoop, innerLoop, trivialEnv, mkTotalEnv,
    List.range_succ]
  norm_num [List.mergeSort_nil]

/-- An oracle whose `resize` call fails at every scale while every other call
succeeds, over the trivial one-point surface type. -/
def resizeFailEnv : DetectEnv Unit where
  resize := fun _ => .error "resize failed"
  matchTemplate := fun _ => .ok ()
  minMaxLoc := fun _ => .ok ((0 : ℚ), ⟨0, 0⟩)
  zeroRect := fun s _ => .ok s
  surfCols := fun _ => 1
  surfRows := fun _ => 1

/-- C4 counterexample: the claim says a failure of the template resize step at
one scale is skipped and the detection call does not fail.  In the source the
resize call carries `?`, so its error propagates: with two scales to try and a
resize failure, the whole call returns the error instead of continuing. -/
theorem c4_counterexample :
    detect_needle_in_haystack resizeFailEnv 1 1 1 = .error "resize failed" ∧
    ¬ ∃ res, detect_needle_in_haystack resizeFailEnv 1 1 1 = .ok res := by
  constructor
  · rfl
  · rintro ⟨res, hres⟩
    rw [show detect_needle_in_haystack resizeFailEnv 1 1 1 = .error "resize failed" from rfl]
      at hres
    cases hres

/-- Projection of `mkTotalEnv`. -/
theorem mkTotalEnv_resize {S : Type} (resize : Nat → Int × Int)
    (matchT : Nat → Except String S) (minMax : S → ℚ × Pt)
    (zero : S → Int × Int × Int × Int → S) (cols rows : S → Int) :
    (mkTotalEnv resize matchT minMax zero cols rows).resize =
      fun step => .ok (resize step) := rfl

/-- Projection of `mkTotalEnv`. -/
theorem mkTotalEnv_matchTemplate {S : Type} (resize : Nat → Int × Int)
    (matchT : Nat → Except String S) (minMax : S → ℚ × Pt)
    (zero : S → Int × Int × Int × Int → S) (cols rows : S → Int) :
    (mkTotalEnv resize matchT minMax zero cols rows).matchTemplate = matchT := rfl

/-- When all fallible calls except `match_template` succeed, the inner loop
equals its pure version. -/
theorem innerLoop_total_eq {S : Type} (resize : Nat → Int × Int)
    (matchT : Nat → Except String S) (minMax : S → ℚ × Pt)
    (zero : S → Int × Int × Int × Int → S) (cols rows : S → Int)
    (numMatches : Nat) (threshold : ℚ) (size : Int × Int) :
    ∀ (fuel : Nat) (surface : S) (acc : List MatchResult),
      innerLoop (mkTotalEnv resize matchT minMax zero cols rows) numMatches threshold size
          fuel surface acc =
        .ok (innerLoopTotal minMax zero cols rows numMatches threshold size fuel surface acc) := by
  intro fuel
  induction fuel with
  | zero => intro surface acc; rfl
  | succ fuel ih =>
    intro surface acc
    rw [innerLoop, innerLoopTotal]
    simp only [mkTotalEnv]
    by_cases hge : (minMax surface).1 ≥ threshold
    · rw [if_pos hge, if_pos hge]
      rw [← apply_ite (Except.ok : S → Except String S)]
      dsimp only
      rw [apply_ite (Except.ok : List MatchResult → Except String (List MatchResult))]
      split
      · rfl
      · exact ih _ _
    · rw [if_neg hge, if_neg hge]
      exact ih _ _

/-- When all fallible calls except `match_template` succeed, the scale loop
equals the pure pool collection. -/
theorem scaleLoop_total_eq {S : Type} (resize : Nat → Int × Int)
    (matchT : Nat → Except String S) (minMax : S → ℚ × Pt)
    (zero : S → Int × Int × Int × Int → S) (cols rows : S → Int)
    (numMatches : Nat) (threshold : ℚ) :
    ∀ (steps : List Nat) (acc : List MatchResult),
      scaleLoop (mkTotalEnv resize matchT minMax zero cols rows) numMatches threshold
          steps acc =
        .ok (collectPool resize matchT minMax zero cols rows numMatches threshold steps acc) := by
  intro steps
  induction steps with
  | nil => intro acc; rfl
  | cons step rest ih =>
    intro acc
    rw [scaleLoop, collectPool]
    cases hmt : matchT step with
    | error e =>
      simp only [mkTotalEnv_resize, mkTotalEnv_matchTemplate, hmt]
      exact ih acc
    | ok surface =>
      simp only [mkTotalEnv_resize, mkTotalEnv_matchTemplate, hmt, innerLoop_total_eq]
      exact ih _

/-- C4 (amended): a failure of the correlation step (`match_template`) at one
scale is skipped — scales whose correlation failed contribute nothing, the
call does not fail, and the remaining scales' matches are collected
(`collectPool` skips exactly the failing scales); a failure of the resize step,
by contrast, propagates and fails the whole call (see the counterexample). -/
theorem c4_match_failure_skipped :
    ∀ {S : Type} (resize : Nat → Int × Int) (matchT : Nat → Except String S)
      (minMax : S → ℚ × Pt) (zero : S → Int × Int × Int × Int → S)
      (cols rows : S → Int) (numMatches scaleSteps : Nat) (threshold : ℚ),
      detect_needle_in_haystack (mkTotalEnv resize matchT minMax zero cols rows)
          numMatches scaleSteps threshold =
        .ok (((collectPool resize matchT minMax zero cols rows numMatches threshold
            (List.range (scaleSteps + 1)) []).mergeSort confGe).take numMatches) := by
  intro S resize matchT minMax zero cols rows numMatches scaleSteps threshold
  unfold detect_needle_in_haystack
  rw [scaleLoop_total_eq]

/-- Behaviour of the member-lookup retry loop when every attempt fails,
starting from loop counter `retry`: each remaining attempt is made, a sleep of
`2 ^ attempt` seconds is recorded after every failed attempt except the last,
and the exhaustion error carries the error of the final attempt. -/
theorem member_retry_all_fail_from {E A : Type} (f : Nat → E) (max : Nat) :
    ∀ (n retry : Nat), max - retry = n → retry < max → ∀ le,
      get_member_with_retry (E := E) (A := A) (fun i => .error (f i)) max retry le =
        ((List.range' retry (max - 1 - retry)).map (fun i => 2 ^ i), max - retry,
          .exhausted (some (f (max - 1)))) := by
  intro n
  induction n with
  | zero => intro retry h hlt le; omega
  | succ n ih =>
    intro retry h hlt le
    rw [get_member_with_retry, dif_pos hlt]
    dsimp only
    by_cases h2 : retry + 1 < max
    · rw [ih (retry + 1) (by omega) h2 (some (f retry))]
      have hsl : max - 1 - retry = (max - 1 - (retry + 1)) + 1 := by omega
      have hat : max - (retry + 1) + 1 = max - retry := by omega
      have hif : retry < max - 1 := by omega
      rw [if_pos hif, hsl, List.range'_succ]
      refine Prod.ext ?_ (Prod.ext ?_ rfl)
      · rw [List.map_cons, List.singleton_append]
      · exact hat
    · have hr : retry + 1 = max := by omega
      rw [get_member_with_retry, dif_neg (by omega : ¬ retry + 1 < max)]
      have hif : ¬ retry < max - 1 := by omega
      have h0 : max - 1 - retry = 0 := by omega
      have h1 : max - retry = 1 := by omega
      have h2' : max - 1 = retry := by omega
      simp [if_neg hif, h0, h1, h2']

/-- Behaviour of the verification retry loop when every attempt fails,
starting from loop counter `retries`: each remaining attempt is made, a sleep
of `2 ^ (attempt + 1)` seconds is recorded after every failed attempt —
including the final one — and the exhaustion error carries the error of the
final attempt. -/
theorem verify_retry_all_fail_from {E A : Type} (f : Nat → E) (max : Nat) :
    ∀ (n retries : Nat), max - retries = n → retries < max → ∀ le,
      verify_completion_with_retry (E := E) (A := A) (fun i => .error (f i)) max retries le =
        ((List.range' retries (max - retries)).map (fun i => 2 ^ (i + 1)), max - retries,
          .exhausted (some (f (max - 1)))) := by
  intro n
  induction n with
  | zero => intro retries h hlt le; omega
  | succ n ih =>
    intro retries h hlt le
    rw [verify_completion_with_retry, dif_pos hlt]
    dsimp only
    by_cases h2 : retries + 1 < max
    · rw [ih (retries + 1) (by omega) h2 (some (f retries))]
      have hsl : max - retries = (max - (retries + 1)) + 1 := by omega
      rw [hsl, List.range'_succ, List.map_cons]
    · have hr : retries + 1 = max := by omega
      rw [verify_completion_with_retry, dif_neg (by omega : ¬ retries + 1 < max)]
      have h0 : max - retries = 1 := by omega
      have h2' : max - 1 = retries := by omega
      simp [h0, h2', List.range'_succ]

/-- C2 counterexample: the claim says both retry call sites sleep
`2^attempt` seconds with attempt starting at 0 and never sleep after the final
attempt, for a total of `2^0 + ... + 2^(max_attempts-2)` seconds.  For the
completion-verification site with `max_retries = 3` and an operation that
always fails, the recorded sleeps are `[2, 4, 8]` — the counter is incremented
before the sleep, so the first sleep is `2^1`, and a sleep also follows the
final attempt — totalling 14 seconds, not the claimed
`2^0 + 2^1 = 3` seconds. -/
theorem c2_counterexample :
    (verify_completion_with_retry (fun i => (Except.error i : Except Nat Unit)) 3 0 none).1
      = [2, 4, 8] ∧
    ([2, 4, 8] : List Nat).sum = 14 ∧ (2 ^ 0 + 2 ^ 1 : Nat) = 3 ∧ (14 : Nat) ≠ 3 := by
  refine ⟨?_, by decide, by decide, by decide⟩
  have h := verify_retry_all_fail_from (E := Nat) (A := Unit) (fun i => i) 3 3 0 rfl
    (by norm_num) none
  rw [h]
  decide

/-- C2 (amended): with an operation failing on every attempt, both retry call
sites attempt the operation exactly `max_attempts` times and return a
distinguished exhaustion outcome carrying the last underlying error; but their
backoffs differ.  The member-lookup site sleeps `2^attempt` seconds (attempt
starting at 0) between consecutive failed attempts and does not sleep after
the final attempt (total `2^0 + ... + 2^(max_attempts-2)`); the
completion-verification site increments its counter before sleeping and sleeps
after every failed attempt including the final one, so its sleeps are
`2^1, ..., 2^max_attempts`. -/
theorem c2_retry_exhaustion {E A : Type} (f : Nat → E) (max : Nat) (hmax : 0 < max) :
    get_member_with_retry (E := E) (A := A) (fun i => .error (f i)) max 0 none =
      ((List.range (max - 1)).map (fun i => 2 ^ i), max, .exhausted (some (f (max - 1)))) ∧
    verify_completion_with_retry (E := E) (A := A) (fun i => .error (f i)) max 0 none =
      ((List.range max).map (fun i => 2 ^ (i + 1)), max, .exhausted (some (f (max - 1)))) := by
  constructor
  · have h := member_retry_all_fail_from (E := E) (A := A) f max max 0 rfl hmax none
    rw [h, List.range_eq_range']
    simp [Nat.sub_zero]
  · have h := verify_retry_all_fail_from (E := E) (A := A) f max max 0 rfl hmax none
    rw [h, List.range_eq_range']
    simp [Nat.sub_zero]

/-- C2 witness: the amended theorem applied at `max_attempts = 3` with an
always-failing operation. -/
theorem c2_retry_exhaustion_witness :
    get_member_with_retry (fun i => (Except.error i : Except Nat Unit)) 3 0 none =
      (([1, 2] : List Nat), 3, .exhausted (some 2)) ∧
    verify_completion_with_retry (fun i => (Except.error i : Except Nat Unit)) 3 0 none =
      (([2, 4, 8] : List Nat), 3, .exhausted (some 2)) := by
  have h := c2_retry_exhaustion (E := Nat) (A := Unit) (fun i => i) 3 (by norm_num)
  constructor
  · rw [h.1]; decide
  · rw [h.2]; decide

/-- Merging the space into the unit literal for hours. -/
theorem space_hour_cons (x : String) : " " ++ ("hour" ++ x) = " hour" ++ x := by
  rw [← String.append_assoc]; rfl

/-- Merging the space into the unit literal for minutes. -/
theorem space_minute_cons (x : String) : " " ++ ("minute" ++ x) = " minute" ++ x := by
  rw [← String.append_assoc]; rfl

/-- Reduction of `String.intercalate` on a singleton. -/
theorem intercalate_single (s a : String) : String.intercalate s [a] = a := rfl

/-- Reduction of `String.intercalate` on a pair. -/
theorem intercalate_pair (s a b : String) : String.intercalate s [a, b] = a ++ s ++ b := rfl

/-- C9: `format_duration` agrees with the spec's formatting contract — only
the non-zero larger units are listed (hours omitted when the hours component
is zero, minutes omitted when the minutes component is zero), the
seconds-and-milliseconds part `"S.mmm second(s)"` (milliseconds zero-padded to
three digits) is always present, each unit is pluralised when its value is not
1, and multiple parts are joined with commas and the last with " and " — and
matches the claim's three concrete examples. -/
theorem c9_format_duration :
    (∀ total_seconds milliseconds : Nat,
      format_duration total_seconds milliseconds =
        spec_format_duration (total_seconds / 3600) (total_seconds % 3600 / 60)
          (total_seconds % 3600 % 60) milliseconds) ∧
    format_duration 5 250 = "5.250 seconds" ∧
    format_duration 3600 0 = "1 hour and 0.000 seconds" ∧
    format_duration 7384 5 = "2 hours, 3 minutes and 4.005 seconds" := by
  refine ⟨?_, rfl, rfl, rfl⟩
  intro secs ms
  unfold format_duration spec_format_duration unitPart
  by_cases hh : secs / 3600 > 0 <;> by_cases hm : secs % 3600 / 60 > 0 <;>
    simp [hh, hm, joinParts, intercalate_single, intercalate_pair,
      space_hour_cons, space_minute_cons, String.append_assoc]
